import Mathlib

/-
Shallow embedding of the CHIP-8 interpreter core from src/wasm/chip8/chip8.cpp.

C arrays are modelled as total functions from Nat; every store into a cell
applies the modulus of the cell width (256 for uint8 cells, 65536 for uint16
cells), mirroring the conversion the C abstract machine performs on stores.
Reads at indices outside the array bounds that the C program would perform
out of bounds are visible here as applications of the function at those
indices; the function cycleAccesses below records exactly which memory
addresses one emulateCycle touches.

Side effects not modelled: printf diagnostics (pure output), srand seeding,
and the internal state of std::rand, which is abstracted by the rand field
of the machine state (the byte std::rand() % 256 would produce).
-/

set_option maxRecDepth 8000

namespace Chip8

/-- Pointwise update of a function modelling a C array: cell i set to v. -/
def upd (a : Nat → Nat) (i v : Nat) : Nat → Nat :=
  fun j => if j = i then v else a j

/-- The global mutable state of chip8.cpp: screen, memory, V registers,
index register I, program counter, call stack and stack pointer, the two
timers, the keypad array, and the abstracted next random byte. -/
@[ext]
structure Machine where
  screen : Nat → Nat
  memory : Nat → Nat
  V : Nat → Nat
  I : Nat
  pc : Nat
  stack : Nat → Nat
  sp : Nat
  delayTimer : Nat
  soundTimer : Nat
  keys : Nat → Nat
  rand : Nat

/-- The built-in fontset, 16 glyphs of 5 bytes each (source lines 31-48). -/
def FONTSET : List Nat :=
  [0xF0, 0x90, 0x90, 0x90, 0xF0,
   0x20, 0x60, 0x20, 0x20, 0x70,
   0xF0, 0x10, 0xF0, 0x80, 0xF0,
   0xF0, 0x10, 0xF0, 0x10, 0xF0,
   0x90, 0x90, 0xF0, 0x10, 0x10,
   0xF0, 0x80, 0xF0, 0x10, 0xF0,
   0xF0, 0x80, 0xF0, 0x90, 0xF0,
   0xF0, 0x10, 0x20, 0x40, 0x40,
   0xF0, 0x90, 0xF0, 0x90, 0xF0,
   0xF0, 0x90, 0xF0, 0x10, 0xF0,
   0xF0, 0x90, 0xF0, 0x90, 0x90,
   0xE0, 0x90, 0xE0, 0x90, 0xE0,
   0xF0, 0x80, 0x80, 0x80, 0xF0,
   0xE0, 0x90, 0x90, 0x90, 0xE0,
   0xF0, 0x80, 0xF0, 0x80, 0xF0,
   0xF0, 0x80, 0xF0, 0x80, 0x80]

/-- cls: memset of the 64 x 32 screen buffer to zero (source line 51). -/
def cls (screen : Nat → Nat) : Nat → Nat :=
  fun i => if i < 2048 then 0 else screen i

/-- loadProgram: memcpy of size bytes from the program buffer to memory
starting at 0x200, then pc set to 0x200 (source lines 59-63). The memcpy is
unchecked: it writes the addresses 0x200 .. 0x200 + size - 1 whatever size
is. Bytes of the buffer beyond the end of the list are modelled as 0. -/
def loadProgram (program : List Nat) (size : Nat) (s : Machine) : Machine :=
  { s with
    memory := fun a =>
      if 0x200 ≤ a ∧ a < 0x200 + size then program.getD (a - 0x200) 0 % 256
      else s.memory a
    pc := 0x200 }

/-- init: clear screen, zero the 16 V registers, I := 0, pc := 0x200, and
copy the 80 fontset bytes to memory at 0x50 (source lines 66-75). The
srand call has no effect on the modelled state. Note that init touches
neither the rest of memory, nor the stack, sp, timers, or keys. -/
def init (s : Machine) : Machine :=
  { s with
    screen := cls s.screen
    V := fun i => if i < 16 then 0 else s.V i
    I := 0
    pc := 0x200
    memory := fun a =>
      if 0x50 ≤ a ∧ a < 0x50 + 80 then FONTSET.getD (a - 0x50) 0
      else s.memory a }

/-- Fetch the two-byte opcode at pc (source line 124). -/
def fetch (s : Machine) : Nat :=
  (s.memory s.pc) <<< 8 ||| s.memory (s.pc + 1)

/-- The sprite bit for a column: (spriteByte >> (7 - col)) & 1
(source line 427). -/
def spriteBit (spriteByte col : Nat) : Nat :=
  (spriteByte >>> (7 - col)) &&& 1

/-- The screen cell index sy * 64 + sx targeted by sprite row and column,
with toroidal wrap (source lines 428-429). -/
def pixelIndex (x y row col : Nat) : Nat :=
  ((y + row) % 32) * 64 + ((x + col) % 64)

/-- One inner iteration of the sprite loop (source lines 427-435): the
collision test reads the pixel before the XOR write. The pair carries the
screen and the collision accumulator. -/
def drawStep (x y row col spriteByte : Nat) (sc : (Nat → Nat) × Nat) :
    (Nat → Nat) × Nat :=
  let p := pixelIndex x y row col
  let b := spriteBit spriteByte col
  let coll := if sc.1 p ≠ 0 ∧ b ≠ 0 then 1 else sc.2
  (upd sc.1 p (sc.1 p ^^^ b), coll)

/-- The inner col loop of DXYN run for the first n columns, in ascending
order (source line 425). -/
def drawCols (x y row spriteByte : Nat) (sc : (Nat → Nat) × Nat) :
    Nat → (Nat → Nat) × Nat
  | 0 => sc
  | n + 1 => drawStep x y row n spriteByte (drawCols x y row spriteByte sc n)

/-- The outer row loop of DXYN run for the first n rows, each row reading
its sprite byte at memory address I + row (source lines 422-424). -/
def drawRows (mem : Nat → Nat) (I x y : Nat) (sc : (Nat → Nat) × Nat) :
    Nat → (Nat → Nat) × Nat
  | 0 => sc
  | n + 1 => drawCols x y n (mem (I + n)) (drawRows mem I x y sc n) 8

/-- The whole DXYN blit: height rows starting from a zero collision flag
(source lines 417-437). Returns the new screen and the collision flag. -/
def drawSprite (screen mem : Nat → Nat) (I x y height : Nat) :
    (Nat → Nat) × Nat :=
  drawRows mem I x y (screen, 0) height

/-- The Fx55 loop: store V0 .. V(n-1) at memory I .. I+n-1, ascending
(source lines 550-553). -/
def storeRegs (mem V : Nat → Nat) (I : Nat) : Nat → (Nat → Nat)
  | 0 => mem
  | n + 1 => upd (storeRegs mem V I n) (I + n) (V n % 256)

/-- The Fx65 loop: load V0 .. V(n-1) from memory I .. I+n-1, ascending
(source lines 560-563). -/
def loadRegs (V mem : Nat → Nat) (I : Nat) : Nat → (Nat → Nat)
  | 0 => V
  | n + 1 => upd (loadRegs V mem I n) n (mem (I + n) % 256)

/-- The Fx0A scan (source lines 499-508): starting at key k with n keys
left to try, the first key whose state is nonzero, if any. -/
def scanKey (keys : Nat → Nat) : Nat → Nat → Option Nat
  | _, 0 => none
  | k, n + 1 => if keys k ≠ 0 then some k else scanKey keys (k + 1) n

/-- The full Fx0A scan over keys 0 .. 15 in ascending order. -/
def firstKey (keys : Nat → Nat) : Option Nat :=
  scanKey keys 0 16

/-- emulateCycle (source lines 121-585): fetch the opcode at pc, dispatch
on its high nibble and, for some classes, on a low byte or nibble, and
perform the operation. Stores into uint8 cells reduce mod 256, stores into
uint16 cells mod 65536, exactly where the C store conversions occur. -/
def emulateCycle (s : Machine) : Machine :=
  let op := fetch s
  if op &&& 0xF000 = 0x0000 then
    if op = 0x00E0 then
      { s with screen := cls s.screen, pc := (s.pc + 2) % 65536 }
    else if op = 0x00EE then
      if s.sp > 0 then
        { s with sp := s.sp - 1, pc := s.stack (s.sp - 1) }
      else
        { s with pc := (s.pc + 2) % 65536 }
    else
      { s with pc := (s.pc + 2) % 65536 }
  else if op &&& 0xF000 = 0x1000 then
    { s with pc := op &&& 0x0FFF }
  else if op &&& 0xF000 = 0x2000 then
    if s.sp < 16 then
      { s with stack := upd s.stack s.sp ((s.pc + 2) % 65536),
               sp := s.sp + 1,
               pc := op &&& 0x0FFF }
    else
      { s with pc := (s.pc + 2) % 65536 }
  else if op &&& 0xF000 = 0x3000 then
    let x := (op &&& 0x0F00) >>> 8
    let nn := op &&& 0x00FF
    if s.V x = nn then { s with pc := (s.pc + 4) % 65536 }
    else { s with pc := (s.pc + 2) % 65536 }
  else if op &&& 0xF000 = 0x4000 then
    let x := (op &&& 0x0F00) >>> 8
    let nn := op &&& 0x00FF
    if s.V x ≠ nn then { s with pc := (s.pc + 4) % 65536 }
    else { s with pc := (s.pc + 2) % 65536 }
  else if op &&& 0xF000 = 0x5000 then
    let x := (op &&& 0x0F00) >>> 8
    let y := (op &&& 0x00F0) >>> 4
    if s.V x ≠ s.V y then { s with pc := (s.pc + 4) % 65536 }
    else { s with pc := (s.pc + 2) % 65536 }
  else if op &&& 0xF000 = 0x6000 then
    let x := (op &&& 0x0F00) >>> 8
    let nn := op &&& 0x00FF
    { s with V := upd s.V x nn, pc := (s.pc + 2) % 65536 }
  else if op &&& 0xF000 = 0x7000 then
    let x := (op &&& 0x0F00) >>> 8
    let nn := op &&& 0x00FF
    { s with V := upd s.V x ((s.V x + nn) % 256), pc := (s.pc + 2) % 65536 }
  else if op &&& 0xF000 = 0x8000 then
    let x := (op &&& 0x0F00) >>> 8
    let y := (op &&& 0x00F0) >>> 4
    if op &&& 0x000F = 0x0 then
      { s with V := upd s.V x (s.V y % 256), pc := (s.pc + 2) % 65536 }
    else if op &&& 0x000F = 0x1 then
      { s with V := upd s.V x ((s.V x ||| s.V y) % 256),
               pc := (s.pc + 2) % 65536 }
    else if op &&& 0x000F = 0x2 then
      { s with V := upd s.V x ((s.V x &&& s.V y) % 256),
               pc := (s.pc + 2) % 65536 }
    else if op &&& 0x000F = 0x3 then
      { s with V := upd s.V x ((s.V x ^^^ s.V y) % 256),
               pc := (s.pc + 2) % 65536 }
    else if op &&& 0x000F = 0x4 then
      let sum := (s.V x + s.V y) % 65536
      let v1 := upd s.V 15 (if sum > 0xFF then 1 else 0)
      { s with V := upd v1 x (sum &&& 0xFF), pc := (s.pc + 2) % 65536 }
    else if op &&& 0x000F = 0x5 then
      let v1 := upd s.V 15 (if s.V x > s.V y then 1 else 0)
      { s with V := upd v1 x ((((v1 x : Int) - (v1 y : Int)) % 256).toNat),
               pc := (s.pc + 2) % 65536 }
    else if op &&& 0x000F = 0x6 then
      let v1 := upd s.V 15 (s.V x &&& 0x1)
      { s with V := upd v1 x ((v1 x >>> 1) % 256), pc := (s.pc + 2) % 65536 }
    else if op &&& 0x000F = 0x7 then
      let v1 := upd s.V 15 (if s.V y > s.V x then 1 else 0)
      { s with V := upd v1 x ((((v1 y : Int) - (v1 x : Int)) % 256).toNat),
               pc := (s.pc + 2) % 65536 }
    else if op &&& 0x000F = 0xE then
      let v1 := upd s.V 15 ((s.V x &&& 0x80) >>> 7)
      { s with V := upd v1 x ((v1 x <<< 1) % 256), pc := (s.pc + 2) % 65536 }
    else
      { s with pc := (s.pc + 2) % 65536 }
  else if op &&& 0xF000 = 0x9000 then
    let x := (op &&& 0x0F00) >>> 8
    let y := (op &&& 0x00F0) >>> 4
    { s with pc := (s.pc + (if s.V x ≠ s.V y then 4 else 2)) % 65536 }
  else if op &&& 0xF000 = 0xA000 then
    { s with I := op &&& 0x0FFF, pc := (s.pc + 2) % 65536 }
  else if op &&& 0xF000 = 0xB000 then
    { s with pc := ((op &&& 0x0FFF) + s.V 0) % 65536 }
  else if op &&& 0xF000 = 0xC000 then
    let x := (op &&& 0x0F00) >>> 8
    let nn := op &&& 0x00FF
    { s with V := upd s.V x ((s.rand % 256) &&& nn), pc := (s.pc + 2) % 65536 }
  else if op &&& 0xF000 = 0xD000 then
    let x := s.V ((op &&& 0x0F00) >>> 8)
    let y := s.V ((op &&& 0x00F0) >>> 4)
    let height := op &&& 0x000F
    let d := drawSprite s.screen s.memory s.I x y height
    { s with screen := d.1, V := upd s.V 15 d.2, pc := (s.pc + 2) % 65536 }
  else if op &&& 0xF000 = 0xE000 then
    let x := (op &&& 0x0F00) >>> 8
    let key := s.V x &&& 0x0F
    if op &&& 0x00FF = 0x9E then
      { s with pc := (s.pc + (if s.keys key ≠ 0 then 4 else 2)) % 65536 }
    else if op &&& 0x00FF = 0xA1 then
      { s with pc := (s.pc + (if s.keys key = 0 then 4 else 2)) % 65536 }
    else
      { s with pc := (s.pc + 2) % 65536 }
  else if op &&& 0xF000 = 0xF000 then
    let x := (op &&& 0x0F00) >>> 8
    let kk := op &&& 0x00FF
    if kk = 0x07 then
      { s with V := upd s.V x (s.delayTimer % 256), pc := (s.pc + 2) % 65536 }
    else if kk = 0x0A then
      match firstKey s.keys with
      | some k => { s with V := upd s.V x (k % 256), pc := (s.pc + 2) % 65536 }
      | none => s
    else if kk = 0x15 then
      { s with delayTimer := s.V x % 256, pc := (s.pc + 2) % 65536 }
    else if kk = 0x18 then
      { s with soundTimer := s.V x % 256, pc := (s.pc + 2) % 65536 }
    else if kk = 0x1E then
      { s with I := (s.I + s.V x) % 65536, pc := (s.pc + 2) % 65536 }
    else if kk = 0x29 then
      { s with I := (0x50 + s.V x * 5) % 65536, pc := (s.pc + 2) % 65536 }
    else if kk = 0x33 then
      let v := s.V x
      { s with
        memory := upd (upd (upd s.memory s.I (v / 100 % 256))
          (s.I + 1) (v / 10 % 10 % 256)) (s.I + 2) (v % 10 % 256)
        pc := (s.pc + 2) % 65536 }
    else if kk = 0x55 then
      { s with memory := storeRegs s.memory s.V s.I (x + 1),
               pc := (s.pc + 2) % 65536 }
    else if kk = 0x65 then
      { s with V := loadRegs s.V s.memory s.I (x + 1),
               pc := (s.pc + 2) % 65536 }
    else
      { s with pc := (s.pc + 2) % 65536 }
  else
    { s with pc := (s.pc + 2) % 65536 }

/-- The list of memory addresses emulateCycle reads or writes in one step:
the fetch at pc and pc + 1 (source line 124), the sprite rows at I + row
(source line 424), the BCD bytes at I, I+1, I+2 (source lines 541-543),
and the bulk store and load at I .. I + x (source lines 550-563). -/
def cycleAccesses (s : Machine) : List Nat :=
  let op := fetch s
  [s.pc, s.pc + 1] ++
  (if op &&& 0xF000 = 0xD000 then
    (List.range (op &&& 0x000F)).map (fun row => s.I + row)
  else if op &&& 0xF000 = 0xF000 then
    if op &&& 0x00FF = 0x33 then [s.I, s.I + 1, s.I + 2]
    else if op &&& 0x00FF = 0x55 ∨ op &&& 0x00FF = 0x65 then
      (List.range (((op &&& 0x0F00) >>> 8) + 1)).map (fun i => s.I + i)
    else []
  else [])

/-- updateTimers (source lines 587-593): decrement each timer if positive. -/
def updateTimers (s : Machine) : Machine :=
  let s1 := if s.delayTimer > 0 then { s with delayTimer := s.delayTimer - 1 }
            else s
  if s1.soundTimer > 0 then { s1 with soundTimer := s1.soundTimer - 1 }
  else s1

/-- n emulateCycle steps. -/
def cycleN : Nat → Machine → Machine
  | 0, s => s
  | n + 1, s => emulateCycle (cycleN n s)

/-- n updateTimers calls. -/
def timersN : Nat → Machine → Machine
  | 0, s => s
  | n + 1, s => updateTimers (timersN n s)

/-- run (source lines 596-611): ten emulateCycle calls, then updateTimers
once per elapsed 60 Hz period. The float accumulator determines only how
many updateTimers calls occur; that count is abstracted as ticks. -/
def run (ticks : Nat) (s : Machine) : Machine :=
  timersN ticks (cycleN 10 s)

/-- True exactly for the two timer-setting opcodes Fx15 and Fx18 at pc. -/
def setsTimer (s : Machine) : Bool :=
  (fetch s &&& 0xF000 = 0xF000) &&
    ((fetch s &&& 0x00FF = 0x15) || (fetch s &&& 0x00FF = 0x18))

/-- The machine with every field zero. -/
def blank : Machine :=
  { screen := fun _ => 0, memory := fun _ => 0, V := fun _ => 0, I := 0,
    pc := 0, stack := fun _ => 0, sp := 0, delayTimer := 0, soundTimer := 0,
    keys := fun _ => 0, rand := 0 }

/-- A freshly initialized machine loaded with the two-byte program
1F FF, the jump instruction JP 0xFFF. -/
def exC1 : Machine :=
  loadProgram [0x1F, 0xFF] 2 (init blank)

/-- A program of 3585 bytes, one more than the 4096 - 0x200 = 3584 bytes of
memory available from the load offset 0x200; every byte is 7. -/
def exC2prog : List Nat :=
  List.replicate 3585 7

/-- A machine whose memory byte 0 is 1, stack depth is 3, delay timer is 7,
and key 0 is down. -/
def exC3 : Machine :=
  { blank with
    memory := fun a => if a = 0 then 1 else 0
    sp := 3
    delayTimer := 7
    keys := fun k => if k = 0 then 1 else 0 }

/-- A machine about to execute opcode 0x5010 (the 5XY0 skip comparing V0
with V1) with V0 = V1 = 0. -/
def exC4 : Machine :=
  { blank with
    memory := fun a => if a = 0x200 then 0x50 else if a = 0x201 then 0x10 else 0
    pc := 0x200 }

/-- The accumulated XOR contribution of the first n columns of one sprite
row to the screen cell p. Used to characterize the draw loops pointwise. -/
def colMask (x y row spriteByte : Nat) : Nat → Nat → Nat
  | 0, _ => 0
  | n + 1, p =>
    colMask x y row spriteByte n p
      ^^^ (if pixelIndex x y row n = p then spriteBit spriteByte n else 0)

/-- The accumulated XOR contribution of the first n sprite rows to the
screen cell p. -/
def rowMask (mem : Nat → Nat) (I x y : Nat) : Nat → Nat → Nat
  | 0, _ => 0
  | n + 1, p =>
    rowMask mem I x y n p ^^^ colMask x y n (mem (I + n)) 8 p

/-- Some target pixel of the DXYN draw decoded at pc is already set while
the corresponding sprite bit is 1, judged on the screen before the draw. -/
def collisionCond (s : Machine) : Prop :=
  ∃ r, r < (fetch s &&& 0x000F) ∧ ∃ c, c < 8 ∧
    spriteBit (s.memory (s.I + r)) c ≠ 0 ∧
    s.screen (pixelIndex (s.V ((fetch s &&& 0x0F00) >>> 8))
      (s.V ((fetch s &&& 0x00F0) >>> 4)) r c) ≠ 0

/-- A machine about to draw a one-row sprite 0x80 from I = 0x300 at
coordinates (0, 0), with the target pixel already set. -/
def exC5 : Machine :=
  { blank with
    memory := fun a =>
      if a = 0x200 then 0xD0 else if a = 0x201 then 0x11 else
      if a = 0x300 then 0x80 else 0
    screen := fun i => if i = 0 then 1 else 0
    I := 0x300
    pc := 0x200 }

/-- A machine with the same two-row draw instruction D012 at 0x200 and at
0x202, sprite bytes FF 81 at I = 0x300, and one screen pixel set. -/
def exC6 : Machine :=
  { blank with
    memory := fun a =>
      if a = 0x200 then 0xD0 else if a = 0x201 then 0x12 else
      if a = 0x202 then 0xD0 else if a = 0x203 then 0x12 else
      if a = 0x300 then 0xFF else if a = 0x301 then 0x81 else 0
    screen := fun i => if i = 3 then 1 else 0
    I := 0x300
    pc := 0x200 }

/-- A machine with a full call stack (depth 16) about to execute CALL 0xABC
at 0x200, followed by RET at 0x202; every stored return address is 0. -/
def exC7 : Machine :=
  { blank with
    memory := fun a =>
      if a = 0x200 then 0x2A else if a = 0x201 then 0xBC else
      if a = 0x202 then 0x00 else if a = 0x203 then 0xEE else 0
    sp := 16
    pc := 0x200 }

/-- A machine about to execute CALL 0x300 at 0x200 with RET at 0x300 and an
empty call stack. -/
def exC7w : Machine :=
  { blank with
    memory := fun a =>
      if a = 0x200 then 0x23 else if a = 0x201 then 0x00 else
      if a = 0x300 then 0x00 else if a = 0x301 then 0xEE else 0
    pc := 0x200 }

/-- A machine about to execute RET at 0x200 with an empty call stack. -/
def exC8a : Machine :=
  { blank with
    memory := fun a => if a = 0x200 then 0x00 else if a = 0x201 then 0xEE else 0
    pc := 0x200 }

/-- A machine about to execute CALL 0x300 at 0x200 with a full call stack. -/
def exC8b : Machine :=
  { blank with
    memory := fun a => if a = 0x200 then 0x23 else if a = 0x201 then 0x00 else 0
    sp := 16
    pc := 0x200 }

/-- A machine with nonzero timers whose memory is all zero, so every cycle
executes the unsupported opcode 0x0000 and only advances pc. -/
def exC9 : Machine :=
  { blank with delayTimer := 5, soundTimer := 2 }

/-- A machine about to execute the key wait F20A with keys 3 and 5 down. -/
def exC10 : Machine :=
  { blank with
    memory := fun a => if a = 0x200 then 0xF2 else if a = 0x201 then 0x0A else 0
    keys := fun k => if k = 3 then 1 else if k = 5 then 1 else 0
    pc := 0x200 }

/-- A machine about to execute the key wait F20A with no key down. -/
def exC10b : Machine :=
  { blank with
    memory := fun a => if a = 0x200 then 0xF2 else if a = 0x201 then 0x0A else 0
    pc := 0x200
    delayTimer := 9 }

end Chip8

namespace Chip8

/-- C1, code_bug: the spec invariant says addresses at or above 4096 are
never accessed, with index arithmetic wrapped or rejected. The code wraps
nothing: from a reachable state (init, load of the program 1F FF, one
cycle executing JP 0xFFF) the next fetch reads memory at pc + 1 = 4096,
one byte past the 4096-byte memory array. -/
theorem fetch_reads_past_memory :
    (emulateCycle exC1).pc = 0xFFF ∧
      4096 ∈ cycleAccesses (emulateCycle exC1) := by
  decide

/-- C2, code_bug: the spec says load copies min(size, 4096 - 0x200) bytes
and discards the excess, with no write at or past 4096. The code is an
unchecked memcpy of size bytes: with a 3585-byte program the byte at
address 0x200 + 3584 = 4096, one past the end of memory, is written
(it changes from 0 to 7). -/
theorem loadProgram_writes_past_memory :
    (init blank).memory 4096 = 0 ∧
      (loadProgram exC2prog 3585 (init blank)).memory 4096 = 7 ∧
      (loadProgram exC2prog 3585 (init blank)).pc = 0x200 := by
  refine ⟨by decide, ?_, by decide⟩
  show (if 0x200 ≤ 4096 ∧ 4096 < 0x200 + 3585
        then exC2prog.getD (4096 - 0x200) 0 % 256
        else (init blank).memory 4096) = 7
  rw [if_pos (by decide)]
  show exC2prog.getD 3584 0 % 256 = 7
  rw [exC2prog, List.getD_eq_getElem?_getD, List.getElem?_replicate]
  decide

/-- C4, code_bug: the claim (and standard CHIP-8) says opcode 5XY0 skips
(pc + 4) when Vx equals Vy. The code skips when they differ, making 5XY0
identical to 9XY0: with V0 = V1 = 0 and opcode 0x5010 at pc = 0x200, the
step advances pc only to 0x202 instead of 0x204. -/
theorem opcode5XY0_no_skip_on_equal :
    exC4.V 0 = exC4.V 1 ∧ exC4.pc = 0x200 ∧
      (emulateCycle exC4).pc = 0x202 := by
  decide

/-- C3, counterexample: the claim says init zeroes every memory byte and
resets the call-stack depth, timers, and keypad. On a machine whose memory
byte 0 is 1, stack depth 3, delay timer 7 and key 0 down, init leaves all
four untouched. -/
theorem init_not_full_reset :
    (init exC3).memory 0 = 1 ∧ (init exC3).sp = 3 ∧
      (init exC3).delayTimer = 7 ∧ (init exC3).keys 0 = 1 := by
  decide

/-- C3, amended: init clears the display, zeroes the sixteen registers,
sets the index register to 0 and pc to 0x200, and writes the 80-byte font
at offset 0x50; it leaves every memory byte outside the font region, the
call stack and its depth, the timers, and the keypad unchanged; and it is
idempotent. -/
theorem init_characterization (s : Machine) :
    init (init s) = init s ∧
    (∀ i, i < 2048 → (init s).screen i = 0) ∧
    (∀ i, i < 16 → (init s).V i = 0) ∧
    (init s).I = 0 ∧ (init s).pc = 0x200 ∧
    (∀ k, k < 80 → (init s).memory (0x50 + k) = FONTSET.getD k 0) ∧
    (∀ a, a < 0x50 ∨ 0xA0 ≤ a → (init s).memory a = s.memory a) ∧
    (init s).stack = s.stack ∧ (init s).sp = s.sp ∧
    (init s).delayTimer = s.delayTimer ∧
    (init s).soundTimer = s.soundTimer ∧ (init s).keys = s.keys := by
  refine ⟨?_, ?_, ?_, rfl, rfl, ?_, ?_, rfl, rfl, rfl, rfl, rfl⟩
  · refine Machine.ext ?_ ?_ ?_ rfl rfl rfl rfl rfl rfl rfl rfl
    · funext i
      by_cases h : i < 2048 <;> simp [init, cls, h]
    · funext a
      by_cases h : 0x50 ≤ a ∧ a < 0x50 + 80 <;> simp [init, h]
    · funext i
      by_cases h : i < 16 <;> simp [init, h]
  · intro i hi
    simp [init, cls, hi]
  · intro i hi
    simp [init, hi]
  · intro k hk
    simp only [init]
    rw [if_pos (by omega)]
    congr 1
    omega
  · intro a ha
    simp only [init]
    rw [if_neg (by omega)]

/-- C3, witness for the amended claim, at the machine exC3: init twice
equals init once, the first font byte 0xF0 sits at 0x50, register 0 is
zeroed, and memory byte 0 (outside the font region) keeps its value. -/
theorem init_characterization_witness :
    init (init exC3) = init exC3 ∧
      (init exC3).memory 0x50 = 0xF0 ∧
      (init exC3).V 0 = 0 ∧
      (init exC3).memory 0 = exC3.memory 0 := by
  have h := init_characterization exC3
  refine ⟨h.1, ?_, h.2.2.1 0 (by decide), ?_⟩
  · have hf := h.2.2.2.2.2.1 0 (by decide)
    simpa using hf
  · exact h.2.2.2.2.2.2.1 0 (Or.inl (by decide))

/-- C8: stack faults are non-fatal. A RET with stack depth 0 only advances
pc by 2; a CALL with stack depth 16 drops the call and only advances pc by
2. In both cases every other component of the state is unchanged. -/
theorem stack_fault_skip_and_continue (s : Machine) :
    (fetch s = 0x00EE → s.sp = 0 →
      emulateCycle s = { s with pc := (s.pc + 2) % 65536 }) ∧
    (fetch s &&& 0xF000 = 0x2000 → s.sp = 16 →
      emulateCycle s = { s with pc := (s.pc + 2) % 65536 }) := by
  constructor
  · intro h1 h2
    simp [emulateCycle, h1, h2]
  · intro h1 h2
    simp [emulateCycle, h1, h2]

/-- C8, witness: RET on exC8a with empty stack and CALL on exC8b with full
stack each leave everything but pc unchanged and advance pc to 0x202. -/
theorem stack_fault_skip_and_continue_witness :
    fetch exC8a = 0x00EE ∧ exC8a.sp = 0 ∧
      emulateCycle exC8a = { exC8a with pc := (exC8a.pc + 2) % 65536 } ∧
      fetch exC8b &&& 0xF000 = 0x2000 ∧ exC8b.sp = 16 ∧
      emulateCycle exC8b = { exC8b with pc := (exC8b.pc + 2) % 65536 } :=
  ⟨by decide, rfl,
    (stack_fault_skip_and_continue exC8a).1 (by decide) rfl,
    by decide, rfl,
    (stack_fault_skip_and_continue exC8b).2 (by decide) rfl⟩

/-- C7, counterexample: the claim quantifies over every state. With a full
call stack (depth 16) the call at 0x200 is dropped, the following RET pops
a stale entry, and the round trip ends at pc = 0 instead of the fall
through address 0x202, with the depth reduced from 16 to 15. -/
theorem call_ret_full_stack_breaks :
    fetch exC7 &&& 0xF000 = 0x2000 ∧
      fetch (emulateCycle exC7) = 0x00EE ∧
      exC7.sp = 16 ∧ exC7.pc = 0x200 ∧
      (emulateCycle (emulateCycle exC7)).pc = 0 ∧
      (emulateCycle (emulateCycle exC7)).sp = 15 := by
  decide

/-- C7, amended: when the call stack is not full (depth below 16), a CALL
step followed by a RET step leaves pc at the call instruction address plus
2 (reduced mod 2^16, as the 16-bit pc stores it) and leaves the stack
depth unchanged. -/
theorem call_ret_roundtrip (s : Machine) (hsp : s.sp < 16)
    (hcall : fetch s &&& 0xF000 = 0x2000)
    (hret : fetch (emulateCycle s) = 0x00EE) :
    (emulateCycle (emulateCycle s)).pc = (s.pc + 2) % 65536 ∧
      (emulateCycle (emulateCycle s)).sp = s.sp := by
  have h1 : emulateCycle s =
      { s with stack := upd s.stack s.sp ((s.pc + 2) % 65536),
               sp := s.sp + 1,
               pc := fetch s &&& 0x0FFF } := by
    simp [emulateCycle, hcall, hsp]
  rw [h1] at hret
  rw [h1]
  simp +decide [emulateCycle, hret, upd]

/-- C7, witness for the amended claim: CALL 0x300 from 0x200 with an empty
stack, RET at 0x300, ends at pc 0x202 with depth 0 again. -/
theorem call_ret_roundtrip_witness :
    exC7w.sp < 16 ∧ fetch exC7w &&& 0xF000 = 0x2000 ∧
      fetch (emulateCycle exC7w) = 0x00EE ∧
      (emulateCycle (emulateCycle exC7w)).pc = (exC7w.pc + 2) % 65536 ∧
      (emulateCycle (emulateCycle exC7w)).sp = exC7w.sp :=
  ⟨by decide, by decide, by decide,
    (call_ret_roundtrip exC7w (by decide) (by decide) (by decide)).1,
    (call_ret_roundtrip exC7w (by decide) (by decide) (by decide)).2⟩

/-- The ascending key scan returns the smallest pressed key at or after
start, when it lies in the scanned window. -/
theorem scanKey_eq_some (keys : Nat → Nat) :
    ∀ n start k, start ≤ k → k < start + n → keys k ≠ 0 →
      (∀ j, start ≤ j → j < k → keys j = 0) →
      scanKey keys start n = some k := by
  intro n
  induction n with
  | zero =>
    intro start k h1 h2 _ _
    omega
  | succ n ih =>
    intro start k h1 h2 hk hmin
    show (if keys start ≠ 0 then some start else scanKey keys (start + 1) n)
      = some k
    by_cases hs : keys start ≠ 0
    · rw [if_pos hs]
      have hks : k = start := by
        by_contra hne
        exact hs (hmin start (le_refl _) (by omega))
      rw [hks]
    · rw [if_neg hs]
      push_neg at hs
      have hne : start ≠ k := fun he => hk (he ▸ hs)
      exact ih (start + 1) k (by omega) (by omega) hk
        (fun j hj1 hj2 => hmin j (by omega) hj2)

/-- The ascending key scan returns none when every key in the scanned
window is up. -/
theorem scanKey_eq_none (keys : Nat → Nat) :
    ∀ n start, (∀ j, start ≤ j → j < start + n → keys j = 0) →
      scanKey keys start n = none := by
  intro n
  induction n with
  | zero =>
    intro start _
    rfl
  | succ n ih =>
    intro start h
    show (if keys start ≠ 0 then some start else scanKey keys (start + 1) n)
      = none
    rw [if_neg (by simp [h start (le_refl _) (by omega)])]
    exact ih (start + 1) (fun j hj1 hj2 => h j (by omega) (by omega))

/-- C10: the Fx0A key wait. When some key in 0..15 is down, the smallest
pressed index k is stored into the destination register, pc advances by 2,
and nothing else changes; when no key is down the step is the identity. -/
theorem key_wait_semantics (s : Machine)
    (hop : fetch s &&& 0xF000 = 0xF000)
    (hkk : fetch s &&& 0x00FF = 0x0A) :
    (∀ k, k < 16 → s.keys k ≠ 0 → (∀ j, j < k → s.keys j = 0) →
      emulateCycle s =
        { s with V := upd s.V ((fetch s &&& 0x0F00) >>> 8) (k % 256),
                 pc := (s.pc + 2) % 65536 }) ∧
    ((∀ k, k < 16 → s.keys k = 0) → emulateCycle s = s) := by
  constructor
  · intro k hk hkey hmin
    have hf : firstKey s.keys = some k :=
      scanKey_eq_some s.keys 16 0 k (Nat.zero_le _) (by omega) hkey
        (fun j _ hj => hmin j hj)
    simp +decide [emulateCycle, hop, hkk, hf]
  · intro hall
    have hf : firstKey s.keys = none :=
      scanKey_eq_none s.keys 16 0 (fun j _ hj => hall j (by omega))
    simp +decide [emulateCycle, hop, hkk, hf]

/-- C10, witness: on exC10 (keys 3 and 5 down) the wait stores 3 into V2
and advances pc; on exC10b (no key down) the step changes nothing. -/
theorem key_wait_semantics_witness :
    fetch exC10 &&& 0xF000 = 0xF000 ∧ fetch exC10 &&& 0x00FF = 0x0A ∧
      exC10.keys 3 ≠ 0 ∧
      emulateCycle exC10 =
        { exC10 with
            V := upd exC10.V ((fetch exC10 &&& 0x0F00) >>> 8) (3 % 256),
            pc := (exC10.pc + 2) % 65536 } ∧
      emulateCycle exC10b = exC10b :=
  ⟨by decide, by decide, by decide,
    (key_wait_semantics exC10 (by decide) (by decide)).1 3 (by decide)
      (by decide) (by decide),
    (key_wait_semantics exC10b (by decide) (by decide)).2 (by decide)⟩

set_option maxHeartbeats 1000000 in
/-- One emulateCycle step leaves both timers unchanged unless the opcode at
pc is Fx15 or Fx18. -/
theorem emulateCycle_timers (s : Machine) (h : setsTimer s = false) :
    (emulateCycle s).delayTimer = s.delayTimer ∧
      (emulateCycle s).soundTimer = s.soundTimer := by
  constructor <;>
  · simp only [emulateCycle]
    by_cases c0 : fetch s &&& 0xF000 = 0x0000
    · rw [if_pos c0]
      repeat' split
      all_goals rfl
    rw [if_neg c0]
    by_cases c1 : fetch s &&& 0xF000 = 0x1000
    · rw [if_pos c1]
    rw [if_neg c1]
    by_cases c2 : fetch s &&& 0xF000 = 0x2000
    · rw [if_pos c2]
      repeat' split
      all_goals rfl
    rw [if_neg c2]
    by_cases c3 : fetch s &&& 0xF000 = 0x3000
    · rw [if_pos c3]
      repeat' split
      all_goals rfl
    rw [if_neg c3]
    by_cases c4 : fetch s &&& 0xF000 = 0x4000
    · rw [if_pos c4]
      repeat' split
      all_goals rfl
    rw [if_neg c4]
    by_cases c5 : fetch s &&& 0xF000 = 0x5000
    · rw [if_pos c5]
      repeat' split
      all_goals rfl
    rw [if_neg c5]
    by_cases c6 : fetch s &&& 0xF000 = 0x6000
    · rw [if_pos c6]
    rw [if_neg c6]
    by_cases c7 : fetch s &&& 0xF000 = 0x7000
    · rw [if_pos c7]
    rw [if_neg c7]
    by_cases c8 : fetch s &&& 0xF000 = 0x8000
    · rw [if_pos c8]
      by_cases d0 : fetch s &&& 0x000F = 0x0
      · rw [if_pos d0]
      rw [if_neg d0]
      by_cases d1 : fetch s &&& 0x000F = 0x1
      · rw [if_pos d1]
      rw [if_neg d1]
      by_cases d2 : fetch s &&& 0x000F = 0x2
      · rw [if_pos d2]
      rw [if_neg d2]
      by_cases d3 : fetch s &&& 0x000F = 0x3
      · rw [if_pos d3]
      rw [if_neg d3]
      by_cases d4 : fetch s &&& 0x000F = 0x4
      · rw [if_pos d4]
      rw [if_neg d4]
      by_cases d5 : fetch s &&& 0x000F = 0x5
      · rw [if_pos d5]
      rw [if_neg d5]
      by_cases d6 : fetch s &&& 0x000F = 0x6
      · rw [if_pos d6]
      rw [if_neg d6]
      by_cases d7 : fetch s &&& 0x000F = 0x7
      · rw [if_pos d7]
      rw [if_neg d7]
      by_cases d8 : fetch s &&& 0x000F = 0xE
      · rw [if_pos d8]
      rw [if_neg d8]
    rw [if_neg c8]
    by_cases c9 : fetch s &&& 0xF000 = 0x9000
    · rw [if_pos c9]
    rw [if_neg c9]
    by_cases ca : fetch s &&& 0xF000 = 0xA000
    · rw [if_pos ca]
    rw [if_neg ca]
    by_cases cb : fetch s &&& 0xF000 = 0xB000
    · rw [if_pos cb]
    rw [if_neg cb]
    by_cases cc : fetch s &&& 0xF000 = 0xC000
    · rw [if_pos cc]
    rw [if_neg cc]
    by_cases cd : fetch s &&& 0xF000 = 0xD000
    · rw [if_pos cd]
    rw [if_neg cd]
    by_cases ce : fetch s &&& 0xF000 = 0xE000
    · rw [if_pos ce]
      repeat' split
      all_goals rfl
    rw [if_neg ce]
    by_cases cf : fetch s &&& 0xF000 = 0xF000
    · rw [if_pos cf]
      repeat' split
      all_goals try rfl
      all_goals simp_all [setsTimer]
    rw [if_neg cf]

/-- updateTimers never increases either timer. -/
theorem updateTimers_le (s : Machine) :
    (updateTimers s).delayTimer ≤ s.delayTimer ∧
      (updateTimers s).soundTimer ≤ s.soundTimer := by
  simp only [updateTimers]
  constructor <;> (repeat' split) <;> simp

/-- Iterated updateTimers never increases either timer. -/
theorem timersN_le (n : Nat) (s : Machine) :
    (timersN n s).delayTimer ≤ s.delayTimer ∧
      (timersN n s).soundTimer ≤ s.soundTimer := by
  induction n with
  | zero => exact ⟨le_refl _, le_refl _⟩
  | succ n ih =>
    have h := updateTimers_le (timersN n s)
    exact ⟨le_trans h.1 ih.1, le_trans h.2 ih.2⟩

/-- n emulateCycle steps leave both timers unchanged when no intermediate
state is about to execute Fx15 or Fx18. -/
theorem cycleN_timers (s : Machine) (n : Nat)
    (h : ∀ k, k < n → setsTimer (cycleN k s) = false) :
    (cycleN n s).delayTimer = s.delayTimer ∧
      (cycleN n s).soundTimer = s.soundTimer := by
  induction n with
  | zero => exact ⟨rfl, rfl⟩
  | succ n ih =>
    have hn := emulateCycle_timers (cycleN n s) (h n (by omega))
    have ih2 := ih (fun k hk => h k (by omega))
    exact ⟨hn.1.trans ih2.1, hn.2.trans ih2.2⟩

/-- C9: across a run call, whatever tick count the elapsed-time accumulator
yields, both timers are monotonically non-increasing provided none of the
ten executed instructions is a timer set (Fx15 or Fx18); the guarded
decrement floors at zero, so the Nat-valued timers never wrap below 0. -/
theorem timers_monotone (s : Machine) (ticks : Nat)
    (h : ∀ k, k < 10 → setsTimer (cycleN k s) = false) :
    (run ticks s).delayTimer ≤ s.delayTimer ∧
      (run ticks s).soundTimer ≤ s.soundTimer := by
  have hc := cycleN_timers s 10 h
  have ht := timersN_le ticks (cycleN 10 s)
  unfold run
  exact ⟨hc.1 ▸ ht.1, hc.2 ▸ ht.2⟩

/-- The screen after the first n columns of a sprite row differs from the
input screen exactly by the accumulated XOR mask of those columns. -/
theorem drawCols_fst (x y row b : Nat) (sc : (Nat → Nat) × Nat) :
    ∀ n p, (drawCols x y row b sc n).1 p
      = sc.1 p ^^^ colMask x y row b n p := by
  intro n
  induction n with
  | zero =>
    intro p
    simp [drawCols, colMask]
  | succ n ih =>
    intro p
    by_cases hp : p = pixelIndex x y row n
    · subst hp
      simp [drawCols, drawStep, upd, colMask, ih, Nat.xor_assoc]
    · have hp2 : pixelIndex x y row n ≠ p := Ne.symm hp
      simp [drawCols, drawStep, upd, colMask, hp, hp2, ih]

/-- The screen after the first n sprite rows differs from the input screen
exactly by the accumulated XOR mask of those rows. -/
theorem drawRows_fst (mem : Nat → Nat) (I x y : Nat) (sc : (Nat → Nat) × Nat) :
    ∀ n p, (drawRows mem I x y sc n).1 p
      = sc.1 p ^^^ rowMask mem I x y n p := by
  intro n
  induction n with
  | zero =>
    intro p
    simp [drawRows, rowMask]
  | succ n ih =>
    intro p
    show (drawCols x y n (mem (I + n)) (drawRows mem I x y sc n) 8).1 p = _
    rw [drawCols_fst, ih]
    simp only [rowMask]
    rw [Nat.xor_assoc]

/-- Within one sprite row, distinct columns below 8 target distinct screen
cells. -/
theorem pixelIndex_inj_col (x y row : Nat) {c1 c2 : Nat} (h1 : c1 < 8)
    (h2 : c2 < 8) (he : pixelIndex x y row c1 = pixelIndex x y row c2) :
    c1 = c2 := by
  unfold pixelIndex at he
  omega

/-- Sprite rows with different wrapped row coordinates target disjoint
screen cells. -/
theorem pixelIndex_ne_of_row_ne (x : Nat) {y r1 r2 : Nat} (c1 c2 : Nat)
    (hr : (y + r1) % 32 ≠ (y + r2) % 32) :
    pixelIndex x y r1 c1 ≠ pixelIndex x y r2 c2 := by
  unfold pixelIndex
  omega

/-- A column mask vanishes at any cell none of its columns targets. -/
theorem colMask_apply_ne (x y row b : Nat) {p : Nat} :
    ∀ n, (∀ c, c < n → pixelIndex x y row c ≠ p) →
      colMask x y row b n p = 0 := by
  intro n
  induction n with
  | zero =>
    intro _
    rfl
  | succ n ih =>
    intro h
    show colMask x y row b n p
      ^^^ (if pixelIndex x y row n = p then spriteBit b n else 0) = 0
    rw [if_neg (h n (by omega)), ih (fun c hc => h c (by omega)), Nat.xor_zero]

/-- A row mask vanishes at any cell none of its rows targets. -/
theorem rowMask_apply_ne (mem : Nat → Nat) (I x y : Nat) {p : Nat} :
    ∀ n, (∀ r c, r < n → c < 8 → pixelIndex x y r c ≠ p) →
      rowMask mem I x y n p = 0 := by
  intro n
  induction n with
  | zero =>
    intro _
    rfl
  | succ n ih =>
    intro h
    show rowMask mem I x y n p ^^^ colMask x y n (mem (I + n)) 8 p = 0
    rw [colMask_apply_ne x y n (mem (I + n)) 8 (fun c hc => h n c (by omega) hc),
      ih (fun r c hr hc => h r c (by omega) hc), Nat.xor_zero]

/-- Applying the same sprite blit twice restores every screen cell. -/
theorem drawSprite_twice (screen mem : Nat → Nat) (I x y h p : Nat) :
    (drawSprite (drawSprite screen mem I x y h).1 mem I x y h).1 p
      = screen p := by
  unfold drawSprite
  rw [drawRows_fst, drawRows_fst]
  show (screen p ^^^ rowMask mem I x y h p) ^^^ rowMask mem I x y h p
    = screen p
  rw [Nat.xor_assoc, Nat.xor_self, Nat.xor_zero]

/-- Collision accumulator after the first n columns of a sprite row: it is
1 exactly when it was already 1 or some processed column had sprite bit 1
over an already-set pixel of the incoming screen. -/
theorem drawCols_snd (x y row b : Nat) (sc : (Nat → Nat) × Nat) :
    ∀ n, n ≤ 8 →
      ((drawCols x y row b sc n).2 = 1 ↔
        sc.2 = 1 ∨ ∃ c, c < n ∧ spriteBit b c ≠ 0 ∧
          sc.1 (pixelIndex x y row c) ≠ 0) := by
  intro n
  induction n with
  | zero =>
    intro _
    simp [drawCols]
  | succ n ih =>
    intro hn
    have hscreen : (drawCols x y row b sc n).1 (pixelIndex x y row n)
        = sc.1 (pixelIndex x y row n) := by
      rw [drawCols_fst,
        colMask_apply_ne x y row b n (fun c hc he =>
          absurd (pixelIndex_inj_col x y row (by omega) (by omega) he)
            (by omega)),
        Nat.xor_zero]
    show ((drawStep x y row n b (drawCols x y row b sc n)).2 = 1 ↔ _)
    simp only [drawStep]
    rw [hscreen]
    by_cases hcond : sc.1 (pixelIndex x y row n) ≠ 0 ∧ spriteBit b n ≠ 0
    · rw [if_pos hcond]
      constructor
      · intro _
        exact Or.inr ⟨n, by omega, hcond.2, hcond.1⟩
      · intro _
        rfl
    · rw [if_neg hcond, ih (by omega)]
      constructor
      · rintro (h | ⟨c, hc, hb, hs⟩)
        · exact Or.inl h
        · exact Or.inr ⟨c, by omega, hb, hs⟩
      · rintro (h | ⟨c, hc, hb, hs⟩)
        · exact Or.inl h
        · rcases Nat.lt_succ_iff_lt_or_eq.mp hc with hlt | heq
          · exact Or.inr ⟨c, hlt, hb, hs⟩
          · subst heq
            exact absurd ⟨hs, hb⟩ hcond

/-- Collision accumulator after the first n sprite rows (n at most 32, so
all targeted cells are distinct): it is 1 exactly when it started as 1 or
some sprite bit 1 in those rows lands on an already-set pixel of the
original screen. -/
theorem drawRows_snd (mem : Nat → Nat) (I x y : Nat) (screen : Nat → Nat)
    (coll : Nat) :
    ∀ n, n ≤ 32 →
      ((drawRows mem I x y (screen, coll) n).2 = 1 ↔
        coll = 1 ∨ ∃ r, r < n ∧ ∃ c, c < 8 ∧
          spriteBit (mem (I + r)) c ≠ 0 ∧
          screen (pixelIndex x y r c) ≠ 0) := by
  intro n
  induction n with
  | zero =>
    intro _
    simp [drawRows]
  | succ n ih =>
    intro hn
    have hsc : ∀ c, (drawRows mem I x y (screen, coll) n).1 (pixelIndex x y n c)
        = screen (pixelIndex x y n c) := by
      intro c
      rw [drawRows_fst,
        rowMask_apply_ne mem I x y n (fun r cc hr _ =>
          pixelIndex_ne_of_row_ne x cc c (by omega)),
        Nat.xor_zero]
    show ((drawCols x y n (mem (I + n))
      (drawRows mem I x y (screen, coll) n) 8).2 = 1 ↔ _)
    rw [drawCols_snd _ _ _ _ _ 8 (le_refl 8), ih (by omega)]
    simp only [hsc]
    constructor
    · rintro ((h | ⟨r, hr, hrest⟩) | ⟨c, hc, hb, hs⟩)
      · exact Or.inl h
      · exact Or.inr ⟨r, by omega, hrest⟩
      · exact Or.inr ⟨n, by omega, c, hc, hb, hs⟩
    · rintro (h | ⟨r, hr, c, hc, hb, hs⟩)
      · exact Or.inl (Or.inl h)
      · rcases Nat.lt_succ_iff_lt_or_eq.mp hr with hlt | heq
        · exact Or.inl (Or.inr ⟨r, hlt, c, hc, hb, hs⟩)
        · subst heq
          exact Or.inr ⟨c, hc, hb, hs⟩

/-- The collision accumulator is either left as it was or set to 1 by a
column loop. -/
theorem drawCols_snd_cases (x y row b : Nat) (sc : (Nat → Nat) × Nat) :
    ∀ n, (drawCols x y row b sc n).2 = sc.2 ∨
      (drawCols x y row b sc n).2 = 1 := by
  intro n
  induction n with
  | zero =>
    exact Or.inl rfl
  | succ n ih =>
    have hstep : (drawCols x y row b sc (n + 1)).2
        = if (drawCols x y row b sc n).1 (pixelIndex x y row n) ≠ 0 ∧
            spriteBit b n ≠ 0
          then 1 else (drawCols x y row b sc n).2 := rfl
    rw [hstep]
    by_cases hcond : (drawCols x y row b sc n).1 (pixelIndex x y row n) ≠ 0 ∧
        spriteBit b n ≠ 0
    · rw [if_pos hcond]
      exact Or.inr rfl
    · rw [if_neg hcond]
      exact ih

/-- The collision accumulator is either left as it was or set to 1 by a
row loop. -/
theorem drawRows_snd_cases (mem : Nat → Nat) (I x y : Nat)
    (sc : (Nat → Nat) × Nat) :
    ∀ n, (drawRows mem I x y sc n).2 = sc.2 ∨
      (drawRows mem I x y sc n).2 = 1 := by
  intro n
  induction n with
  | zero =>
    exact Or.inl rfl
  | succ n ih =>
    have hstep : (drawRows mem I x y sc (n + 1)).2
        = (drawCols x y n (mem (I + n)) (drawRows mem I x y sc n) 8).2 := rfl
    rw [hstep]
    rcases drawCols_snd_cases x y n (mem (I + n))
      (drawRows mem I x y sc n) 8 with h | h
    · rw [h]
      exact ih
    · rw [h]
      exact Or.inr rfl

/-- C6: a step executing a DXYN draw, immediately followed by a step that
fetches the same opcode (the draw modifies neither the sprite bytes at I
nor, when the coordinate registers are not register 15, its operands),
restores every pixel of the screen to its value before the first draw. -/
theorem draw_twice_restores_screen (s : Machine)
    (hop : fetch s &&& 0xF000 = 0xD000)
    (hx : (fetch s &&& 0x0F00) >>> 8 ≠ 15)
    (hy : (fetch s &&& 0x00F0) >>> 4 ≠ 15)
    (hsame : fetch (emulateCycle s) = fetch s) :
    ∀ p, (emulateCycle (emulateCycle s)).screen p = s.screen p := by
  have hstep : emulateCycle s =
      { s with
        screen := (drawSprite s.screen s.memory s.I
          (s.V ((fetch s &&& 0x0F00) >>> 8))
          (s.V ((fetch s &&& 0x00F0) >>> 4)) (fetch s &&& 0x000F)).1,
        V := upd s.V 15 (drawSprite s.screen s.memory s.I
          (s.V ((fetch s &&& 0x0F00) >>> 8))
          (s.V ((fetch s &&& 0x00F0) >>> 4)) (fetch s &&& 0x000F)).2,
        pc := (s.pc + 2) % 65536 } := by
    simp +decide [emulateCycle, hop]
  intro p
  rw [hstep] at hsame
  rw [hstep]
  simp +decide [emulateCycle, hsame, hop, upd, hx, hy, drawSprite_twice]

/-- C6, witness: on exC6 (draw D012 at 0x200 and 0x202, sprite FF 81 at
0x300, pixel 3 set) two steps restore pixel 3. -/
theorem draw_twice_restores_screen_witness :
    fetch exC6 &&& 0xF000 = 0xD000 ∧
      (fetch exC6 &&& 0x0F00) >>> 8 ≠ 15 ∧
      (fetch exC6 &&& 0x00F0) >>> 4 ≠ 15 ∧
      fetch (emulateCycle exC6) = fetch exC6 ∧
      (emulateCycle (emulateCycle exC6)).screen 3 = exC6.screen 3 :=
  ⟨by decide, by decide, by decide, by decide,
    draw_twice_restores_screen exC6 (by decide) (by decide) (by decide)
      (by decide) 3⟩

/-- C5: after a DXYN step, register 15 is 1 exactly when some sprite bit 1
lands on a pixel that was set before the draw, and 0 exactly otherwise; the
test is evaluated against the pre-draw screen. -/
theorem collision_flag_iff (s : Machine)
    (hop : fetch s &&& 0xF000 = 0xD000) :
    ((emulateCycle s).V 15 = 1 ↔ collisionCond s) ∧
      ((emulateCycle s).V 15 = 0 ↔ ¬ collisionCond s) := by
  have hstep : emulateCycle s =
      { s with
        screen := (drawSprite s.screen s.memory s.I
          (s.V ((fetch s &&& 0x0F00) >>> 8))
          (s.V ((fetch s &&& 0x00F0) >>> 4)) (fetch s &&& 0x000F)).1,
        V := upd s.V 15 (drawSprite s.screen s.memory s.I
          (s.V ((fetch s &&& 0x0F00) >>> 8))
          (s.V ((fetch s &&& 0x00F0) >>> 4)) (fetch s &&& 0x000F)).2,
        pc := (s.pc + 2) % 65536 } := by
    simp +decide [emulateCycle, hop]
  have h32 : fetch s &&& 0x000F ≤ 32 :=
    le_trans Nat.and_le_right (by norm_num)
  have hd : ((drawSprite s.screen s.memory s.I
      (s.V ((fetch s &&& 0x0F00) >>> 8)) (s.V ((fetch s &&& 0x00F0) >>> 4))
      (fetch s &&& 0x000F)).2 = 1 ↔ collisionCond s) := by
    unfold drawSprite collisionCond
    rw [drawRows_snd s.memory s.I (s.V ((fetch s &&& 0x0F00) >>> 8))
      (s.V ((fetch s &&& 0x00F0) >>> 4)) s.screen 0 (fetch s &&& 0x000F) h32]
    simp
  refine ⟨?_, ?_⟩
  · rw [hstep]
    simpa [upd] using hd
  · rw [hstep]
    have hb : (drawSprite s.screen s.memory s.I
        (s.V ((fetch s &&& 0x0F00) >>> 8)) (s.V ((fetch s &&& 0x00F0) >>> 4))
        (fetch s &&& 0x000F)).2 = 0 ∨
        (drawSprite s.screen s.memory s.I
        (s.V ((fetch s &&& 0x0F00) >>> 8)) (s.V ((fetch s &&& 0x00F0) >>> 4))
        (fetch s &&& 0x000F)).2 = 1 := by
      simpa [drawSprite] using
        drawRows_snd_cases s.memory s.I (s.V ((fetch s &&& 0x0F00) >>> 8))
          (s.V ((fetch s &&& 0x00F0) >>> 4)) (s.screen, 0)
          (fetch s &&& 0x000F)
    simp only [upd, if_true]
    rw [← hd]
    omega

/-- C5, witness: on exC5 (draw D011, sprite byte 0x80 at 0x300, target
pixel 0 already set) the step reports a collision via the iff. -/
theorem collision_flag_iff_witness :
    fetch exC5 &&& 0xF000 = 0xD000 ∧
      ((emulateCycle exC5).V 15 = 1 ↔ collisionCond exC5) :=
  ⟨by decide, (collision_flag_iff exC5 (by decide)).1⟩

/-- C9, witness: on exC9 (timers 5 and 2, all-zero program memory) a run
with three timer ticks does not increase either timer. -/
theorem timers_monotone_witness :
    (∀ k, k < 10 → setsTimer (cycleN k exC9) = false) ∧
      (run 3 exC9).delayTimer ≤ exC9.delayTimer ∧
      (run 3 exC9).soundTimer ≤ exC9.soundTimer :=
  ⟨by decide,
    (timers_monotone exC9 3 (by decide)).1,
    (timers_monotone exC9 3 (by decide)).2⟩

end Chip8

